import Mathlib

/-!
Shallow embedding of the storage-access layer in `src/store.rs`: the
`BitStore` trait and its four implementors (`u8`, `BitSafeU8`, `Cell<u8>`,
`AtomicU8`), together with theorems settling the specification's claims.

External collaborators (the bit-ordering policy, the validated bit-index
type, and the `BitSafe` wrapper, which live in other modules of the crate)
are modelled from the specification's description of them; everything else
is translated directly from `src/store.rs`.
-/

namespace BitvecStore

/-- The four `BitStore` implementors produced in `store.rs`:
`u8`, `BitSafeU8`, `Cell<u8>` and `AtomicU8`. -/
inductive StoreTy
  | u8v
  | bitSafeU8v
  | cellU8v
  | atomicU8v
  deriving DecidableEq

/-- The register (`BitRegister`) types appearing as `Mem` associated types;
only the 8-bit width is instantiated in `store.rs`. -/
inductive RegTy
  | u8reg
  deriving DecidableEq

/-- `type Mem` of each implementor: all four use `u8`
(store.rs lines 98, 129, 156, 195). -/
def Mem : StoreTy → RegTy
  | _ => .u8reg

/-- Bit width of a register type. -/
def regWidth : RegTy → Nat
  | .u8reg => 8

/-- Bit width of an implementor's underlying register. -/
def width (t : StoreTy) : Nat :=
  regWidth (Mem t)

/-- `type Alias` of each implementor (store.rs lines 103, 131, 158, 197). -/
def aliasTy : StoreTy → StoreTy
  | .u8v => .bitSafeU8v
  | .bitSafeU8v => .bitSafeU8v
  | .cellU8v => .cellU8v
  | .atomicU8v => .atomicU8v

/-- `type Unalias` of each implementor (store.rs lines 104, 132, 159, 198). -/
def unaliasTy : StoreTy → StoreTy
  | .u8v => .u8v
  | .bitSafeU8v => .u8v
  | .cellU8v => .cellU8v
  | .atomicU8v => .atomicU8v

/-- Modelled from the spec: the exclusivity classes of the aliasing regimes —
exclusive access (no other live handle) versus shared access (multiple live
handles permitted). -/
inductive ExClass
  | exclusive
  | shared
  deriving DecidableEq

/-- Modelled from the spec: the exclusivity class of each implementor.  The
raw register type `u8` is the base/exclusive variant; `BitSafeU8`,
`Cell<u8>` and `AtomicU8` are the shared/aliased regimes. -/
def exClass : StoreTy → ExClass
  | .u8v => .exclusive
  | _ => .shared

/-- Modelled from the spec: the bit-ordering policy collaborator
(`BitOrder`, in `order.rs`, outside `src/`).  It maps a semantic bit index
to a concrete bit position inside the 8-bit register. -/
structure BitOrder where
  at' : Fin 8 → Fin 8

/-- Modelled from the spec: the single-bit selection mask the ordering policy
computes for a semantic index (`BitIdx::select::<O>`, in `index.rs`, outside
`src/`): a one-hot mask whose set bit is at position `O.at' i`. -/
def select (O : BitOrder) (i : Fin 8) : Nat :=
  2 ^ (O.at' i).val

/-- Modelled from the spec: an ordering in which semantic index 0 maps to the
least-significant bit of the register (the identity position map). -/
def Lsb0 : BitOrder :=
  ⟨fun i => i⟩

/-- Modelled from the spec: `BitSafeU8` (`crate::access`, outside `src/`), a
forced-safe wrapper type over the raw `u8` register with the same value
content. -/
structure BitSafeU8 where
  val : Nat
  deriving DecidableEq

/-- Modelled from the spec: `BitSafeU8::new` wraps a register value. -/
def BitSafeU8.new (value : Nat) : BitSafeU8 :=
  ⟨value⟩

/-- Modelled from the spec: `BitSafe::load` reads the wrapped register value
through the alias-safe access mechanism. -/
def BitSafeU8.load (s : BitSafeU8) : Nat :=
  s.val

/-- Modelled from the spec: `<Self as BitSafe>::ZERO`, the wrapper around the
all-zero register. -/
def BitSafeU8.zero : BitSafeU8 :=
  BitSafeU8.new 0

/-- `core::cell::Cell<u8>`: an interior-mutable wrapper holding a `u8`. -/
structure CellU8 where
  val : Nat
  deriving DecidableEq

/-- `Cell::new` (core library): wraps a value. -/
def CellU8.new (value : Nat) : CellU8 :=
  ⟨value⟩

/-- `Cell::get` (core library): extracts the current contents. -/
def CellU8.get (s : CellU8) : Nat :=
  s.val

/-- `core::sync::atomic::AtomicU8`: an atomic cell holding a `u8`. -/
structure AtomicU8 where
  val : Nat
  deriving DecidableEq

/-- `AtomicU8::new` (core library): wraps a value. -/
def AtomicU8.new (value : Nat) : AtomicU8 :=
  ⟨value⟩

/-- `AtomicU8::load` with `Ordering::Relaxed` (core library), in this
sequential embedding: reads the current contents. -/
def AtomicU8.load (s : AtomicU8) : Nat :=
  s.val

/-- The handle type of each implementor. -/
@[reducible]
def Handle : StoreTy → Type
  | .u8v => Nat
  | .bitSafeU8v => BitSafeU8
  | .cellU8v => CellU8
  | .atomicU8v => AtomicU8

namespace Store

/-- `BitStore::new` for each implementor
(store.rs lines 109, 137, 164, 203). -/
def new : (t : StoreTy) → Nat → Handle t
  | .u8v => fun value => value
  | .bitSafeU8v => fun value => BitSafeU8.new value
  | .cellU8v => fun value => CellU8.new value
  | .atomicU8v => fun value => AtomicU8.new value

/-- `BitStore::load_value` for each implementor
(store.rs lines 112-114, 140-142, 167-169, 206-208). -/
def load_value : (t : StoreTy) → Handle t → Nat
  | .u8v => fun s => s
  | .bitSafeU8v => fun s => BitSafeU8.load s
  | .cellU8v => fun s => CellU8.get s
  | .atomicU8v => fun s => AtomicU8.load s

/-- `BitStore::store_value` for each implementor
(store.rs lines 117-119, 145-147, 172-174, 211-213): the handle contents are
replaced (`*self = value` or `*self = Self::new(value)`). -/
def store_value : (t : StoreTy) → Handle t → Nat → Handle t
  | .u8v => fun _ value => value
  | .bitSafeU8v => fun _ value => BitSafeU8.new value
  | .cellU8v => fun _ value => CellU8.new value
  | .atomicU8v => fun _ value => AtomicU8.new value

/-- `BitStore::ZERO` for each implementor
(store.rs lines 106, 134, 161, 200). -/
def ZERO : (t : StoreTy) → Handle t
  | .u8v => 0
  | .bitSafeU8v => BitSafeU8.zero
  | .cellU8v => CellU8.new 0
  | .atomicU8v => AtomicU8.new 0

/-- `BitStore::get_bit` (store.rs lines 69-75):
`self.load_value() & index.select::<O>().into_inner() != Mem::ZERO`. -/
def get_bit (t : StoreTy) (s : Handle t) (O : BitOrder) (index : Fin 8) :
    Bool :=
  (load_value t s &&& select O index) != 0

/-- `BitStore::get_bit` as a state-passing operation: the receiver is taken
by shared reference (`&self`), so the handle state accompanies the result;
the body only calls `load_value` and pure mask arithmetic
(store.rs lines 69-75). -/
def get_bit_st (t : StoreTy) (s : Handle t) (O : BitOrder) (index : Fin 8) :
    Bool × Handle t :=
  (get_bit t s O index, s)

end Store

/-- Claim C1: for every Storage Handle variant and every representable
register value x, constructing a handle with `new x` and calling
`load_value` returns x; and after `store_value x` on any handle,
`load_value` returns x. -/
theorem C1_roundtrip (t : StoreTy) (x : Nat) (hx : x < 256) (s : Handle t) :
    Store.load_value t (Store.new t x) = x ∧
    Store.load_value t (Store.store_value t s x) = x := by
  cases t <;> exact ⟨rfl, rfl⟩

/-- Witness for C1 at the `u8` variant with x = 37. -/
theorem C1_roundtrip_witness :
    Store.load_value .u8v (Store.new .u8v 37) = 37 ∧
    Store.load_value .u8v (Store.store_value .u8v (Store.new .u8v 0) 37)
      = 37 :=
  C1_roundtrip .u8v 37 (by decide) (Store.new .u8v 0)

/-- Claim C2: `get_bit i` on a handle wrapping r returns exactly the boolean
`(r AND mask) != 0`, where mask is the one-bit mask the ordering computes
for i, and the result is the same for every Storage Handle variant. -/
theorem C2_get_bit_mask (t t' : StoreTy) (r : Nat) (hr : r < 256)
    (O : BitOrder) (i : Fin 8) :
    Store.get_bit t (Store.new t r) O i = ((r &&& select O i) != 0) ∧
    Store.get_bit t (Store.new t r) O i
      = Store.get_bit t' (Store.new t' r) O i := by
  constructor
  · cases t <;> rfl
  · cases t <;> cases t' <;> rfl

/-- Witness for C2 at r = 5, the LSB-first ordering, index 0, comparing the
`u8` and `Cell<u8>` variants. -/
theorem C2_get_bit_mask_witness :
    Store.get_bit .u8v (Store.new .u8v 5) Lsb0 0 = ((5 &&& select Lsb0 0) != 0) ∧
    Store.get_bit .u8v (Store.new .u8v 5) Lsb0 0
      = Store.get_bit .cellU8v (Store.new .cellU8v 5) Lsb0 0 :=
  C2_get_bit_mask .u8v .cellU8v 5 (by decide) Lsb0 0

/-- Claim C3 fails as stated: for `u8`, following Unalias and then Alias
lands on `BitSafeU8`, which is in the shared regime, not `u8`'s original
exclusive class (and is not `u8` itself). -/
theorem C3_counterexample :
    exClass (aliasTy (unaliasTy StoreTy.u8v)) ≠ exClass StoreTy.u8v ∧
    aliasTy (unaliasTy StoreTy.u8v) ≠ StoreTy.u8v := by
  decide

/-- Claim C3 (amended): the Alias and Unalias transitions preserve the
underlying register type `Mem` and its bit width, and the two compositions
resolve to the family's canonical siblings: `T::Alias::Unalias =
T::Unalias` (the exclusive representative) and `T::Unalias::Alias =
T::Alias` (the aliased representative), over the same `Mem`. -/
theorem C3_alias_roundtrip (t : StoreTy) :
    Mem (aliasTy t) = Mem t ∧ Mem (unaliasTy t) = Mem t ∧
    width (aliasTy t) = width t ∧ width (unaliasTy t) = width t ∧
    unaliasTy (aliasTy t) = unaliasTy t ∧
    aliasTy (unaliasTy t) = aliasTy t := by
  cases t <;> exact ⟨rfl, rfl, rfl, rfl, rfl, rfl⟩

/-- Claim C4: `BitSafeU8` has Alias equal to itself and Unalias equal to the
raw register type `u8`; `Cell<u8>` and `AtomicU8` each have Alias and
Unalias both equal to themselves. -/
theorem C4_sibling_table :
    aliasTy .bitSafeU8v = .bitSafeU8v ∧ unaliasTy .bitSafeU8v = .u8v ∧
    aliasTy .cellU8v = .cellU8v ∧ unaliasTy .cellU8v = .cellU8v ∧
    aliasTy .atomicU8v = .atomicU8v ∧ unaliasTy .atomicU8v = .atomicU8v := by
  decide

/-- Claim C7: for every variant, a handle initialized to `0b0000_0000`,
after `store_value 0b0000_0001`, yields `get_bit 0 = true` and
`get_bit 1 = false` under an ordering mapping index 0 to the
least-significant bit. -/
theorem C7_example (t : StoreTy) :
    Store.get_bit t (Store.store_value t (Store.new t 0) 1) Lsb0 0 = true ∧
    Store.get_bit t (Store.store_value t (Store.new t 0) 1) Lsb0 1 = false := by
  cases t <;> exact ⟨by decide, by decide⟩

/-- Claim C8: `get_bit` is side-effect-free: the state-passing form returns
the handle unchanged, so `load_value` before and after `get_bit` agrees,
for every variant, stored value, ordering and index. -/
theorem C8_get_bit_pure (t : StoreTy) (s : Handle t) (O : BitOrder)
    (i : Fin 8) :
    (Store.get_bit_st t s O i).2 = s ∧
    Store.load_value t (Store.get_bit_st t s O i).2
      = Store.load_value t s :=
  ⟨rfl, rfl⟩

/-- Claim C9: every operation of the layer is total: for every variant,
input value, handle, ordering and index, `new`, `load_value`, `store_value`
and `get_bit` each produce a result, with no failure or error value
anywhere in the embedding. -/
theorem C9_total (t : StoreTy) (x : Nat) (s : Handle t) (O : BitOrder)
    (i : Fin 8) :
    (∃ s', Store.new t x = s') ∧ (∃ v, Store.load_value t s = v) ∧
    (∃ s', Store.store_value t s x = s') ∧
    (∃ b, Store.get_bit t s O i = b) :=
  ⟨⟨_, rfl⟩, ⟨_, rfl⟩, ⟨_, rfl⟩, ⟨_, rfl⟩⟩

/-- Claim C10: for every variant, the `ZERO` constant loads as the all-zero
register value, so `get_bit` on `ZERO` is false at every index under every
ordering. -/
theorem C10_zero (t : StoreTy) (O : BitOrder) (i : Fin 8) :
    Store.load_value t (Store.ZERO t) = 0 ∧
    Store.get_bit t (Store.ZERO t) O i = false := by
  cases t <;>
    exact ⟨rfl, by simp [Store.get_bit, Store.load_value, Store.ZERO,
      BitSafeU8.zero, BitSafeU8.new, BitSafeU8.load, CellU8.new, CellU8.get,
      AtomicU8.new, AtomicU8.load, Nat.zero_and]⟩

end BitvecStore
